import Mathlib

set_option maxHeartbeats 1000000

/-!
Verification of the FiguresZCU104 framebuffer rendering pipeline.

The four scripts (`botafogo.py`, `nhd.py`, `HousePepperCman.py`,
`animate-single-image.py`) share one pipeline: read the framebuffer
geometry, compose a screen-sized RGB raster, convert it to the device
pixel format, and write the byte buffer to the device.  The definitions
below embed that pipeline.  Machine integers are modelled as `Nat`
(the numpy `uint8`/`uint16` values involved never overflow on the paths
modelled: the RGB565 word is below `2 ^ 16` by construction), Python's
`int(a / b)` on non-negative integers is modelled as `Nat` floor
division, and the external image library's decode/resize primitives are
passed in as parameters where a function needs them.
-/

/-- variable-descriptor geometry as read by `get_var_info`: the fields of
`VarScreenInfo` that the rendering code consumes.  `blue` models the
`c_uint32 * 3` array field `blue`; the scripts read `blue[2]` and treat it
as the blue-channel bit offset (see the debug print labelled
`RGB format`).  The remaining descriptor fields (`xres_virtual`,
`grayscale`, `red`, `green`, `transp`, ...) are never read by the
rendering logic and are omitted. -/
structure VarScreenInfo where
  xres : Nat
  yres : Nat
  bits_per_pixel : Nat
  blue : Fin 3 → Nat

/-- one pixel of the composite RGB raster, 8-bit channels stored as `Nat`. -/
structure RGB where
  r : Nat
  g : Nat
  b : Nat
deriving DecidableEq

/-- 32-bit pixel encoding: mirrors `image_array[:, :, ::-1]` (channel
reversal, applied exactly when `var_info.blue[2] == 0`) followed by
`np.insert(image_array, 3, 255, axis=2)` (append a constant alpha byte as
the 4th byte). -/
def encodePixel32 (blue2 : Nat) (p : RGB) : List Nat :=
  (if blue2 = 0 then [p.r, p.g, p.b].reverse else [p.r, p.g, p.b]) ++ [255]

/-- RGB565 packed word: mirrors
`r = (arr[:,:,0] >> 3).astype(uint16) << 11`,
`g = (arr[:,:,1] >> 2).astype(uint16) << 5`,
`b = (arr[:,:,2] >> 3).astype(uint16)`, combined with `r | g | b`. -/
def rgb565 (p : RGB) : Nat :=
  ((p.r >>> 3) <<< 11) ||| ((p.g >>> 2) <<< 5) ||| (p.b >>> 3)

/-- two bytes of the RGB565 word as produced by numpy `uint16.tobytes()`
on the little-endian ARM target: low byte first. -/
def encodePixel16 (p : RGB) : List Nat :=
  [rgb565 p % 256, rgb565 p / 256]

/-- raw 3-byte passthrough: when `bits_per_pixel` is neither 32 nor 16 the
scripts leave `image_array` untouched, so `flatten().tobytes()` emits the
RGB bytes unchanged. -/
def pixelBytesRGB (p : RGB) : List Nat :=
  [p.r, p.g, p.b]

/-- pixel-format conversion shared by all four scripts: the
`if var_info.bits_per_pixel == 32: ... elif ... == 16: ...` block followed
by `image_array.flatten().tobytes()`.  The frame is the row-major list of
RGB pixels of the composed raster. -/
def encode (v : VarScreenInfo) (frame : List RGB) : List Nat :=
  if v.bits_per_pixel = 32 then frame.flatMap (encodePixel32 (v.blue 2))
  else if v.bits_per_pixel = 16 then frame.flatMap encodePixel16
  else frame.flatMap pixelBytesRGB

/-- an error reported by the OS write collaborator. -/
inductive WriteError where
  | ioFailure
deriving DecidableEq

/-- one write issued to the device: byte offset and data. -/
structure WriteAttempt where
  offset : Nat
  data : List Nat
deriving DecidableEq

/-- frame write: `with open(fb_file, 'wb') as f: f.write(image_bytes)`.
Opening with mode `wb` positions the handle at offset 0, the single
`write` call covers the whole buffer, and a failure reported by the file
object propagates as an exception with no retry; `osWrite` models the
file object's write call, which either completes the whole buffer or
fails. The second component is the trace of writes issued to the
device. -/
def write_frame (osWrite : List Nat → Except WriteError Unit)
    (buffer : List Nat) : Except WriteError Unit × List WriteAttempt :=
  (osWrite buffer, [⟨0, buffer⟩])

/-- encode-and-write tail shared by the scripts (`display_image` after
composition): encode the composed frame and perform the single frame
write. -/
def display_image (v : VarScreenInfo) (frame : List RGB)
    (osWrite : List Nat → Except WriteError Unit) :
    Except WriteError Unit × List WriteAttempt :=
  write_frame osWrite (encode v frame)

/-- Modelled from the spec: a decoder is not part of the repository; this
reads a 32-bit pixel's bytes back "under the same channel-layout rule"
(blue offset 0 means the bytes are B,G,R,alpha; otherwise R,G,B,alpha). -/
def decodePixel32 (blue2 : Nat) (bytes : List Nat) : RGB :=
  if blue2 = 0 then ⟨bytes.getD 2 0, bytes.getD 1 0, bytes.getD 0 0⟩
  else ⟨bytes.getD 0 0, bytes.getD 1 0, bytes.getD 2 0⟩

/-- Modelled from the spec: RGB565 decoder under the same channel-layout
rule, reading the two little-endian bytes back into a word and
re-expanding each field by the inverse shift (top 5 bits red, middle 6
green, bottom 5 blue). -/
def decodePixel16 (b0 b1 : Nat) : RGB :=
  let w := b0 + 256 * b1
  ⟨(w >>> 11) <<< 3, ((w >>> 5) % 64) <<< 2, (w % 32) <<< 3⟩

/-- grid horizontal margin: `int(var_info.xres * margin_percent / 100)`
from `display_six_images` (non-negative truncating division modelled as
`Nat` floor division). -/
def horizontal_margin (v : VarScreenInfo) (m : Nat) : Nat :=
  v.xres * m / 100

/-- grid vertical margin: `int(var_info.yres * margin_percent / 100)`. -/
def vertical_margin (v : VarScreenInfo) (m : Nat) : Nat :=
  v.yres * m / 100

/-- grid cell width: `(var_info.xres - 4 * horizontal_margin) // 3`. -/
def available_width (v : VarScreenInfo) (m : Nat) : Nat :=
  (v.xres - 4 * horizontal_margin v m) / 3

/-- grid cell height: `(var_info.yres - 3 * vertical_margin) // 2`. -/
def available_height (v : VarScreenInfo) (m : Nat) : Nat :=
  (v.yres - 3 * vertical_margin v m) / 2

/-- grid cell x origin for image index `i`:
`horizontal_margin + (i % 3) * (available_width + horizontal_margin)`. -/
def cell_x (v : VarScreenInfo) (m i : Nat) : Nat :=
  horizontal_margin v m + i % 3 * (available_width v m + horizontal_margin v m)

/-- grid cell y origin for image index `i`:
`vertical_margin + (i // 3) * (available_height + vertical_margin)`. -/
def cell_y (v : VarScreenInfo) (m i : Nat) : Nat :=
  vertical_margin v m + i / 3 * (available_height v m + vertical_margin v m)

/-- membership of a point in grid cell `i` (the cell rectangle of size
`available_width × available_height` at the cell origin). -/
def inCell (v : VarScreenInfo) (m i px py : Nat) : Prop :=
  cell_x v m i ≤ px ∧ px < cell_x v m i + available_width v m ∧
  cell_y v m i ≤ py ∧ py < cell_y v m i + available_height v m

/-- a decoded raster from the external image library: dimensions and a
pixel lookup. -/
structure Image where
  width : Nat
  height : Nat
  pix : Nat → Nat → RGB

/-- the canvas produced by `Image.new('RGB', (w, h))` with no background
argument: PIL fills with zero, i.e. black `(0, 0, 0)`. -/
def blackCanvas : Nat → Nat → RGB :=
  fun _ _ => ⟨0, 0, 0⟩

/-- `canvas.paste(img, (ox, oy))`: inside the pasted rectangle the result
shows the pasted image, elsewhere the underlying canvas. -/
def paste (canvas : Nat → Nat → RGB) (img : Image) (ox oy : Nat) :
    Nat → Nat → RGB :=
  fun x y =>
    if ox ≤ x ∧ x < ox + img.width ∧ oy ≤ y ∧ y < oy + img.height then
      img.pix (x - ox) (y - oy)
    else canvas x y

/-- dual layout: `new_width = var_info.xres // 2` from
`display_dual_images`. -/
def new_width (v : VarScreenInfo) : Nat :=
  v.xres / 2

/-- dual layout: `new_height = int(new_width * image.height / image.width)`
(aspect-preserving, truncating). -/
def new_height (v : VarScreenInfo) (img : Image) : Nat :=
  new_width v * img.height / img.width

/-- the two paste offsets of `display_dual_images`: `(0, 0)` and
`(new_width, 0)`, both receiving the same resized raster. -/
def dual_paste_offsets (v : VarScreenInfo) : List (Nat × Nat) :=
  [(0, 0), (new_width v, 0)]

/-- dual layout composition: a fresh black canvas with the single resized
raster pasted at `(0, 0)` and again at `(new_width, 0)`. -/
def combined_image (v : VarScreenInfo) (resized : Image) :
    Nat → Nat → RGB :=
  paste (paste blackCanvas resized 0 0) resized (new_width v) 0

/-- an error surfaced by a layout routine. -/
inductive DisplayError where
  | layoutPrecondition
deriving DecidableEq

/-- head of `display_six_images`: the image-count guard
`if len(image_paths) != 6: raise ValueError(...)` runs before any
composition; on success the composed raster (produced by the grid
composition, taken here as a parameter so its image-resampling
collaborator stays external) is encoded into the output buffer. -/
def display_six_images (compose : List Image → List RGB)
    (images : List Image) (v : VarScreenInfo) :
    Except DisplayError (List Nat) :=
  if images.length ≠ 6 then Except.error DisplayError.layoutPrecondition
  else Except.ok (encode v (compose images))

/-- orbit animation: `center_x = var_info.xres // 2`. -/
def center_x (v : VarScreenInfo) : Nat :=
  v.xres / 2

/-- orbit animation: `center_y = var_info.yres // 2`. -/
def center_y (v : VarScreenInfo) : Nat :=
  v.yres / 2

/-- orbit animation: `radius = min(var_info.xres, var_info.yres) * 0.25`. -/
noncomputable def radius (v : VarScreenInfo) : ℝ :=
  (min v.xres v.yres : Nat) * 0.25

/-- orbit animation: `angular_speed = 2 * math.pi / 5`. -/
noncomputable def angular_speed : ℝ :=
  2 * Real.pi / 5

/-- orbit sprite anchor at elapsed time `t` for a resized sprite of size
`w × h`: the real-valued coordinates inside the `int(...)` conversions of
`animate_image`. -/
noncomputable def orbit_anchor (v : VarScreenInfo) (w h : Nat) (t : ℝ) :
    ℝ × ℝ :=
  (center_x v + radius v * Real.cos (t * angular_speed) - w / 2,
   center_y v + radius v * Real.sin (t * angular_speed) - h / 2)

/-- concrete 1920×1080 32-bit geometry used in the grid checks. -/
def geomFHD : VarScreenInfo :=
  ⟨1920, 1080, 32, fun _ => 0⟩

/-- concrete 1280×720 geometry used in the dual-layout checks. -/
def geomHD : VarScreenInfo :=
  ⟨1280, 720, 32, fun _ => 0⟩

/-- concrete 32-bit geometry with blue offset 0. -/
def geomBGR : VarScreenInfo :=
  ⟨2, 1, 32, fun _ => 0⟩

/-- concrete 16-bit geometry (1×1). -/
def geom16 : VarScreenInfo :=
  ⟨1, 1, 16, fun _ => 11⟩

/-- concrete geometry with an unsupported depth of 8 bits per pixel. -/
def geom8 : VarScreenInfo :=
  ⟨1, 1, 8, fun _ => 0⟩

/-- concrete one-pixel frame. -/
def onePixelFrame : List RGB :=
  [⟨1, 2, 3⟩]

/-- OS write collaborator that always succeeds. -/
def osOk : List Nat → Except WriteError Unit :=
  fun _ => Except.ok ()

/-- OS write collaborator that always reports an I/O failure. -/
def osFail : List Nat → Except WriteError Unit :=
  fun _ => Except.error WriteError.ioFailure

/-- concrete 640×480 source image. -/
def img640 : Image :=
  ⟨640, 480, fun _ _ => ⟨0, 0, 0⟩⟩

/-- concrete 640×480 resized raster with a recognisable pixel value. -/
def resized640 : Image :=
  ⟨640, 480, fun _ _ => ⟨9, 9, 9⟩⟩

theorem flatMap_uniform_length {α β : Type} (f : α → List β) (k : Nat)
    (hk : ∀ a, (f a).length = k) (l : List α) :
    (l.flatMap f).length = k * l.length := by
  induction l with
  | nil => simp
  | cons a l ih =>
    simp only [List.flatMap_cons, List.length_append, hk, ih,
      List.length_cons]
    ring

theorem flatMap_uniform_getD {α β : Type} (f : α → List β) (k : Nat)
    (hk : ∀ a, (f a).length = k) (d : β) :
    ∀ (l : List α) (i : Nat) (hi : i < l.length) (j : Nat), j < k →
      (l.flatMap f).getD (k * i + j) d = (f (l.get ⟨i, hi⟩)).getD j d := by
  intro l
  induction l with
  | nil => intro i hi; simp at hi
  | cons a l ih =>
    intro i hi j hj
    match i with
    | 0 =>
      simp only [Nat.mul_zero, Nat.zero_add, List.flatMap_cons, List.get]
      rw [List.getD_append _ _ _ _ (by rw [hk a]; exact hj)]
    | i + 1 =>
      have hlen : k * (i + 1) + j = (f a).length + (k * i + j) := by
        rw [hk a]; ring
      simp only [List.flatMap_cons, List.get, hlen]
      rw [List.getD_append_right _ _ _ _ (by omega),
        Nat.add_sub_cancel_left]
      exact ih i (by simpa using hi) j hj

theorem lor_shift_fields (x y z : Nat) (hy : y < 64) (hz : z < 32) :
    (x <<< 11) ||| (y <<< 5) ||| z = x * 2048 + y * 32 + z := by
  rw [Nat.shiftLeft_eq, Nat.shiftLeft_eq]
  have e1 : x * 2 ^ 11 ||| y * 2 ^ 5 = 2 ^ 11 * x + y * 2 ^ 5 := by
    rw [Nat.mul_comm x]
    exact (Nat.mul_add_lt_is_or (by omega) x).symm
  rw [e1]
  have e2 : 2 ^ 11 * x + y * 2 ^ 5 = 2 ^ 5 * (2 ^ 6 * x + y) := by ring
  rw [e2, (Nat.mul_add_lt_is_or (by omega) (2 ^ 6 * x + y)).symm]
  ring

theorem rgb565_eq (p : RGB) (hg : p.g < 256) (hb : p.b < 256) :
    rgb565 p = p.r / 8 * 2048 + p.g / 4 * 32 + p.b / 8 := by
  unfold rgb565
  rw [Nat.shiftRight_eq_div_pow, Nat.shiftRight_eq_div_pow,
    Nat.shiftRight_eq_div_pow]
  exact lor_shift_fields _ _ _ (by omega) (by omega)

/-- C1: on every 32-bit geometry, `encode` reverses each pixel's RGB byte
triplet to BGR exactly when the geometry's blue value at index 2 (the
blue-channel bit offset) is 0, leaves the order RGB when it is non-zero,
and in both cases appends a fixed alpha byte of 255 as the 4th byte of
every pixel, yielding 4 bytes per pixel. -/
theorem c1_encode32 (v : VarScreenInfo) (frame : List RGB)
    (h32 : v.bits_per_pixel = 32) :
    encode v frame =
      frame.flatMap (fun p =>
        if v.blue 2 = 0 then [p.b, p.g, p.r, 255]
        else [p.r, p.g, p.b, 255]) ∧
    (encode v frame).length = 4 * frame.length := by
  have hp : encodePixel32 (v.blue 2) = fun p =>
      if v.blue 2 = 0 then [p.b, p.g, p.r, 255]
      else [p.r, p.g, p.b, 255] := by
    funext p
    unfold encodePixel32
    split <;> rfl
  have he : encode v frame = frame.flatMap (encodePixel32 (v.blue 2)) := by
    unfold encode
    rw [h32]
    simp
  refine ⟨by rw [he, hp], ?_⟩
  rw [he]
  rw [flatMap_uniform_length _ 4 (fun p => by
    unfold encodePixel32; split <;> rfl) frame]

/-- witness for C1 at a concrete 32-bit BGR geometry and one-pixel frame. -/
theorem c1_encode32_witness :
    encode geomBGR onePixelFrame =
      onePixelFrame.flatMap (fun p =>
        if geomBGR.blue 2 = 0 then [p.b, p.g, p.r, 255]
        else [p.r, p.g, p.b, 255]) ∧
    (encode geomBGR onePixelFrame).length = 4 * onePixelFrame.length :=
  c1_encode32 geomBGR onePixelFrame rfl

/-- C2: on every 16-bit geometry, `encode` outputs exactly
`2 * width * height` bytes; pixel `i` is stored as the two little-endian
bytes of the RGB565 word `((r >>> 3) <<< 11) ||| ((g >>> 2) <<< 5) |||
(b >>> 3)`, whose top 5 bits are `r >>> 3`, middle 6 bits `g >>> 2` and
bottom 5 bits `b >>> 3` (truncating quantization). -/
theorem c2_encode16 (v : VarScreenInfo) (frame : List RGB)
    (h16 : v.bits_per_pixel = 16)
    (hval : ∀ p ∈ frame, p.r < 256 ∧ p.g < 256 ∧ p.b < 256)
    (hlen : frame.length = v.xres * v.yres) :
    (encode v frame).length = 2 * (v.xres * v.yres) ∧
    ∀ i (hi : i < frame.length),
      (encode v frame).getD (2 * i) 0 = rgb565 (frame.get ⟨i, hi⟩) % 256 ∧
      (encode v frame).getD (2 * i + 1) 0 = rgb565 (frame.get ⟨i, hi⟩) / 256 ∧
      rgb565 (frame.get ⟨i, hi⟩) < 65536 ∧
      rgb565 (frame.get ⟨i, hi⟩) >>> 11 = (frame.get ⟨i, hi⟩).r >>> 3 ∧
      (rgb565 (frame.get ⟨i, hi⟩) >>> 5) % 64 = (frame.get ⟨i, hi⟩).g >>> 2 ∧
      rgb565 (frame.get ⟨i, hi⟩) % 32 = (frame.get ⟨i, hi⟩).b >>> 3 := by
  have he : encode v frame = frame.flatMap encodePixel16 := by
    unfold encode
    rw [h16]
    simp
  have hk : ∀ p, (encodePixel16 p).length = 2 := fun p => rfl
  refine ⟨?_, ?_⟩
  · rw [he, flatMap_uniform_length _ 2 hk frame, hlen]
  · intro i hi
    have hmem : frame.get ⟨i, hi⟩ ∈ frame := List.get_mem frame i hi
    obtain ⟨hr, hg, hb⟩ := hval _ hmem
    have hw := rgb565_eq (frame.get ⟨i, hi⟩) hg hb
    simp only [List.get_eq_getElem] at hw hr hg hb ⊢
    have h0 : (encode v frame).getD (2 * i) 0 =
        (encodePixel16 frame[i]).getD 0 0 := by
      rw [he]
      have h2 := flatMap_uniform_getD encodePixel16 2 hk 0 frame i hi 0
        (by omega)
      simpa using h2
    have h1 : (encode v frame).getD (2 * i + 1) 0 =
        (encodePixel16 frame[i]).getD 1 0 := by
      rw [he]
      have h2 := flatMap_uniform_getD encodePixel16 2 hk 0 frame i hi 1
        (by omega)
      simpa using h2
    refine ⟨by rw [h0]; rfl, by rw [h1]; rfl, by omega, ?_, ?_, ?_⟩
    · rw [Nat.shiftRight_eq_div_pow, Nat.shiftRight_eq_div_pow, hw]
      norm_num
      omega
    · rw [Nat.shiftRight_eq_div_pow, Nat.shiftRight_eq_div_pow, hw]
      norm_num
      omega
    · rw [Nat.shiftRight_eq_div_pow, hw]
      norm_num
      omega

/-- witness for C2 at a concrete 1×1 16-bit geometry. -/
theorem c2_encode16_witness :
    (encode geom16 onePixelFrame).length = 2 * (geom16.xres * geom16.yres) ∧
    ∀ i (hi : i < onePixelFrame.length),
      (encode geom16 onePixelFrame).getD (2 * i) 0 =
        rgb565 (onePixelFrame.get ⟨i, hi⟩) % 256 ∧
      (encode geom16 onePixelFrame).getD (2 * i + 1) 0 =
        rgb565 (onePixelFrame.get ⟨i, hi⟩) / 256 ∧
      rgb565 (onePixelFrame.get ⟨i, hi⟩) < 65536 ∧
      rgb565 (onePixelFrame.get ⟨i, hi⟩) >>> 11 =
        (onePixelFrame.get ⟨i, hi⟩).r >>> 3 ∧
      (rgb565 (onePixelFrame.get ⟨i, hi⟩) >>> 5) % 64 =
        (onePixelFrame.get ⟨i, hi⟩).g >>> 2 ∧
      rgb565 (onePixelFrame.get ⟨i, hi⟩) % 32 =
        (onePixelFrame.get ⟨i, hi⟩).b >>> 3 :=
  c2_encode16 geom16 onePixelFrame rfl (by decide) (by decide)

/-- counterexample to C3: on the 8-bit geometry the pipeline raises no
unsupported-format error; `encode` returns the raw 3-byte RGB buffer and
that buffer is written to the device (the write trace is non-empty and the
call succeeds). -/
theorem c3_counterexample :
    encode geom8 onePixelFrame = [1, 2, 3] ∧
    (display_image geom8 onePixelFrame osOk).2 = [⟨0, [1, 2, 3]⟩] ∧
    (display_image geom8 onePixelFrame osOk).2 ≠ [] ∧
    (display_image geom8 onePixelFrame osOk).1 = Except.ok () := by
  refine ⟨rfl, rfl, ?_, rfl⟩
  decide

/-- C3 as amended: for every geometry whose `bits_per_pixel` is neither 32
nor 16, `encode` leaves the frame unconverted (3 raw RGB bytes per pixel),
no error is raised, and that passthrough buffer is written to the device
as the single frame write. -/
theorem c3_passthrough (v : VarScreenInfo) (frame : List RGB)
    (h1 : v.bits_per_pixel ≠ 32) (h2 : v.bits_per_pixel ≠ 16)
    (osWrite : List Nat → Except WriteError Unit) :
    encode v frame = frame.flatMap pixelBytesRGB ∧
    (display_image v frame osWrite).2 =
      [⟨0, frame.flatMap pixelBytesRGB⟩] := by
  have he : encode v frame = frame.flatMap pixelBytesRGB := by
    unfold encode
    rw [if_neg h1, if_neg h2]
  exact ⟨he, by simp [display_image, write_frame, he]⟩

/-- witness for the amended C3 at the concrete 8-bit geometry. -/
theorem c3_passthrough_witness :
    encode geom8 onePixelFrame = onePixelFrame.flatMap pixelBytesRGB ∧
    (display_image geom8 onePixelFrame osOk).2 =
      [⟨0, onePixelFrame.flatMap pixelBytesRGB⟩] :=
  c3_passthrough geom8 onePixelFrame (by decide) (by decide) osOk

/-- counterexample to C4: the 16-bit round trip is not within ±4 per
channel; the pixel with red 7 decodes to red 0, an error of 7. -/
theorem c4_counterexample :
    decodePixel16 ((encodePixel16 ⟨7, 0, 0⟩).getD 0 0)
      ((encodePixel16 ⟨7, 0, 0⟩).getD 1 0) = ⟨0, 0, 0⟩ ∧
    ¬((7 : Nat) -
        (decodePixel16 ((encodePixel16 ⟨7, 0, 0⟩).getD 0 0)
          ((encodePixel16 ⟨7, 0, 0⟩).getD 1 0)).r ≤ 4) := by
  decide

/-- C4 as amended: encode-then-decode under the same channel-layout rule
reproduces every RGB value exactly on the 32-bit path; on the 16-bit path
the decoded value never exceeds the original and sits within 7 of it for
red and blue and within 3 for green (truncating quantization error). -/
theorem c4_roundtrip (blue2 : Nat) (p : RGB)
    (hr : p.r < 256) (hg : p.g < 256) (hb : p.b < 256) :
    decodePixel32 blue2 (encodePixel32 blue2 p) = p ∧
    (decodePixel16 ((encodePixel16 p).getD 0 0)
        ((encodePixel16 p).getD 1 0)).r ≤ p.r ∧
    p.r - (decodePixel16 ((encodePixel16 p).getD 0 0)
        ((encodePixel16 p).getD 1 0)).r ≤ 7 ∧
    (decodePixel16 ((encodePixel16 p).getD 0 0)
        ((encodePixel16 p).getD 1 0)).g ≤ p.g ∧
    p.g - (decodePixel16 ((encodePixel16 p).getD 0 0)
        ((encodePixel16 p).getD 1 0)).g ≤ 3 ∧
    (decodePixel16 ((encodePixel16 p).getD 0 0)
        ((encodePixel16 p).getD 1 0)).b ≤ p.b ∧
    p.b - (decodePixel16 ((encodePixel16 p).getD 0 0)
        ((encodePixel16 p).getD 1 0)).b ≤ 7 := by
  have h32 : decodePixel32 blue2 (encodePixel32 blue2 p) = p := by
    by_cases h : blue2 = 0 <;> simp [encodePixel32, decodePixel32, h]
  have hword : (encodePixel16 p).getD 0 0 +
      256 * (encodePixel16 p).getD 1 0 = rgb565 p := by
    simp only [encodePixel16, List.getD]
    exact Nat.mod_add_div _ _
  have hv := rgb565_eq p hg hb
  refine ⟨h32, ?_, ?_, ?_, ?_, ?_, ?_⟩ <;>
    · simp only [decodePixel16, hword, hv, Nat.shiftRight_eq_div_pow,
        Nat.shiftLeft_eq]
      norm_num
      omega

/-- witness for the amended C4 at a concrete pixel on both layouts. -/
theorem c4_roundtrip_witness :
    decodePixel32 0 (encodePixel32 0 ⟨7, 130, 255⟩) = ⟨7, 130, 255⟩ ∧
    (decodePixel16 ((encodePixel16 ⟨7, 130, 255⟩).getD 0 0)
        ((encodePixel16 ⟨7, 130, 255⟩).getD 1 0)).r ≤ 7 ∧
    (7 : Nat) - (decodePixel16 ((encodePixel16 ⟨7, 130, 255⟩).getD 0 0)
        ((encodePixel16 ⟨7, 130, 255⟩).getD 1 0)).r ≤ 7 ∧
    (decodePixel16 ((encodePixel16 ⟨7, 130, 255⟩).getD 0 0)
        ((encodePixel16 ⟨7, 130, 255⟩).getD 1 0)).g ≤ 130 ∧
    (130 : Nat) - (decodePixel16 ((encodePixel16 ⟨7, 130, 255⟩).getD 0 0)
        ((encodePixel16 ⟨7, 130, 255⟩).getD 1 0)).g ≤ 3 ∧
    (decodePixel16 ((encodePixel16 ⟨7, 130, 255⟩).getD 0 0)
        ((encodePixel16 ⟨7, 130, 255⟩).getD 1 0)).b ≤ 255 ∧
    (255 : Nat) - (decodePixel16 ((encodePixel16 ⟨7, 130, 255⟩).getD 0 0)
        ((encodePixel16 ⟨7, 130, 255⟩).getD 1 0)).b ≤ 7 :=
  c4_roundtrip 0 ⟨7, 130, 255⟩ (by decide) (by decide) (by decide)

/-- C5: the grid margins and cell dimensions follow the stated formulas
for every geometry and margin percentage; on the 1920×1080 geometry with
margin 5% they evaluate to 96, 54, 512 and 459, the six cell origins
follow `(h_margin + (i mod 3)(cw + h_margin), v_margin + (i div 3)(ch +
v_margin))`, and the six cells are pairwise non-overlapping. -/
theorem c5_grid :
    (∀ (v : VarScreenInfo) (m i : Nat),
      horizontal_margin v m = v.xres * m / 100 ∧
      vertical_margin v m = v.yres * m / 100 ∧
      available_width v m = (v.xres - 4 * horizontal_margin v m) / 3 ∧
      available_height v m = (v.yres - 3 * vertical_margin v m) / 2 ∧
      cell_x v m i = horizontal_margin v m +
        i % 3 * (available_width v m + horizontal_margin v m) ∧
      cell_y v m i = vertical_margin v m +
        i / 3 * (available_height v m + vertical_margin v m)) ∧
    horizontal_margin geomFHD 5 = 96 ∧
    vertical_margin geomFHD 5 = 54 ∧
    available_width geomFHD 5 = 512 ∧
    available_height geomFHD 5 = 459 ∧
    ∀ i j : Fin 6, i ≠ j → ∀ px py : Nat,
      ¬(inCell geomFHD 5 i.val px py ∧ inCell geomFHD 5 j.val px py) := by
  refine ⟨fun v m i => ⟨rfl, rfl, rfl, rfl, rfl, rfl⟩,
    by decide, by decide, by decide, by decide, ?_⟩
  intro i j hij px py hmem
  obtain ⟨h1, h2⟩ := hmem
  have hx : cell_x geomFHD 5 i.val ≤ px ∧
      px < cell_x geomFHD 5 i.val + 512 ∧
      cell_y geomFHD 5 i.val ≤ py ∧
      py < cell_y geomFHD 5 i.val + 459 := by
    have hw : available_width geomFHD 5 = 512 := by decide
    have hh : available_height geomFHD 5 = 459 := by decide
    rw [inCell, hw, hh] at h1
    exact h1
  have hy : cell_x geomFHD 5 j.val ≤ px ∧
      px < cell_x geomFHD 5 j.val + 512 ∧
      cell_y geomFHD 5 j.val ≤ py ∧
      py < cell_y geomFHD 5 j.val + 459 := by
    have hw : available_width geomFHD 5 = 512 := by decide
    have hh : available_height geomFHD 5 = 459 := by decide
    rw [inCell, hw, hh] at h2
    exact h2
  have hsep : cell_x geomFHD 5 i.val + 512 ≤ cell_x geomFHD 5 j.val ∨
      cell_x geomFHD 5 j.val + 512 ≤ cell_x geomFHD 5 i.val ∨
      cell_y geomFHD 5 i.val + 459 ≤ cell_y geomFHD 5 j.val ∨
      cell_y geomFHD 5 j.val + 459 ≤ cell_y geomFHD 5 i.val := by
    fin_cases i <;> fin_cases j <;> first
      | exact absurd rfl hij
      | decide
  omega

/-- witness for C5: cells 0 and 1 do not both contain the point
`(100, 100)`. -/
theorem c5_grid_witness :
    ¬(inCell geomFHD 5 (0 : Fin 6).val 100 100 ∧
      inCell geomFHD 5 (1 : Fin 6).val 100 100) :=
  c5_grid.2.2.2.2.2 0 1 (by decide) 100 100

/-- C6: calling the six-image grid display with an image count other than
six fails with the layout-precondition error before any composition, so
no output buffer is produced and nothing is written to the device. -/
theorem c6_precondition (compose : List Image → List RGB)
    (images : List Image) (v : VarScreenInfo)
    (h : images.length ≠ 6) :
    display_six_images compose images v =
      Except.error DisplayError.layoutPrecondition := by
  unfold display_six_images
  rw [if_pos h]

/-- witness for C6 with a concrete list of five images. -/
theorem c6_precondition_witness :
    display_six_images (fun _ => []) (List.replicate 5 img640) geomFHD =
      Except.error DisplayError.layoutPrecondition :=
  c6_precondition (fun _ => []) (List.replicate 5 img640) geomFHD
    (by simp)

/-- C7: the dual layout computes `new_width = width / 2` (integer
division) and `new_height = new_width * source_height / source_width`,
pastes the same resized raster at `(0, 0)` and `(new_width, 0)`, and on
the 1280×720 geometry with a 640×480 source yields `new_width = 640`,
`new_height = 480` with second paste offset exactly `(640, 0)`. -/
theorem c7_dual (v : VarScreenInfo) (img resized : Image)
    (hw : resized.width = new_width v) :
    new_width v = v.xres / 2 ∧
    new_height v img = new_width v * img.height / img.width ∧
    dual_paste_offsets v = [(0, 0), (new_width v, 0)] ∧
    (∀ x y, x < new_width v → y < resized.height →
      combined_image v resized x y = resized.pix x y) ∧
    (∀ x y, new_width v ≤ x → x < new_width v + new_width v →
      y < resized.height →
      combined_image v resized x y = resized.pix (x - new_width v) y) ∧
    new_width geomHD = 640 ∧
    new_height geomHD img640 = 480 ∧
    (dual_paste_offsets geomHD).getD 1 (0, 0) = (640, 0) := by
  refine ⟨rfl, rfl, rfl, ?_, ?_, by decide, by decide, by decide⟩
  · intro x y hx hy
    unfold combined_image paste
    rw [if_neg (by omega), if_pos (by omega)]
    simp
  · intro x y hx hx2 hy
    unfold combined_image paste
    rw [if_pos (by omega)]
    simp

/-- witness for C7 at the concrete 1280×720 geometry and 640×480
rasters. -/
theorem c7_dual_witness :
    new_width geomHD = geomHD.xres / 2 ∧
    new_height geomHD img640 = new_width geomHD * img640.height /
      img640.width ∧
    dual_paste_offsets geomHD = [(0, 0), (new_width geomHD, 0)] ∧
    (∀ x y, x < new_width geomHD → y < resized640.height →
      combined_image geomHD resized640 x y = resized640.pix x y) ∧
    (∀ x y, new_width geomHD ≤ x → x < new_width geomHD + new_width geomHD →
      y < resized640.height →
      combined_image geomHD resized640 x y =
        resized640.pix (x - new_width geomHD) y) ∧
    new_width geomHD = 640 ∧
    new_height geomHD img640 = 480 ∧
    (dual_paste_offsets geomHD).getD 1 (0, 0) = (640, 0) :=
  c7_dual geomHD img640 resized640 rfl

/-- C8: for every geometry and resized sprite size, the orbit anchor at
elapsed time `t` is `(center_x + radius * cos(t * angular_speed) - w/2,
center_y + radius * sin(t * angular_speed) - h/2)` with
`center = (width/2, height/2)` and `radius = 0.25 * min(width, height)`;
at `t = 0` it equals `(center_x + radius - w/2, center_y - h/2)`. -/
theorem c8_orbit (v : VarScreenInfo) (w h : Nat) :
    (∀ t : ℝ, orbit_anchor v w h t =
      (center_x v + radius v * Real.cos (t * angular_speed) - w / 2,
       center_y v + radius v * Real.sin (t * angular_speed) - h / 2)) ∧
    center_x v = v.xres / 2 ∧ center_y v = v.yres / 2 ∧
    radius v = (min v.xres v.yres : Nat) * 0.25 ∧
    orbit_anchor v w h 0 =
      (center_x v + radius v - w / 2, (center_y v : ℝ) - h / 2) := by
  refine ⟨fun t => rfl, rfl, rfl, rfl, ?_⟩
  unfold orbit_anchor
  rw [zero_mul, Real.cos_zero, Real.sin_zero, mul_one, mul_zero, add_zero]

/-- C9: the frame writer performs exactly one sequential write of the
entire encoded buffer at device offset 0, and when the write collaborator
reports a failure the writer returns that error with the trace still a
single attempt: nothing is retried, padded or reissued. -/
theorem c9_write (osWrite : List Nat → Except WriteError Unit)
    (buffer : List Nat) :
    (write_frame osWrite buffer).2 = [⟨0, buffer⟩] ∧
    (write_frame osWrite buffer).2.length = 1 ∧
    ∀ e, osWrite buffer = Except.error e →
      (write_frame osWrite buffer).1 = Except.error e ∧
      (write_frame osWrite buffer).2 = [⟨0, buffer⟩] :=
  ⟨rfl, rfl, fun e he => ⟨he, rfl⟩⟩

/-- witness for C9 with a failing write collaborator on a two-byte
buffer. -/
theorem c9_write_witness :
    (write_frame osFail [1, 2]).1 = Except.error WriteError.ioFailure ∧
    (write_frame osFail [1, 2]).2 = [⟨0, [1, 2]⟩] :=
  (c9_write osFail [1, 2]).2.2 WriteError.ioFailure rfl

/-- C10: in the dual layout every canvas pixel not covered by either
pasted copy of the resized raster — in particular every row at or below
the resized height, and every column at or beyond twice `new_width` — is
black `(0, 0, 0)`, the default fill of a canvas created with no explicit
background color. -/
theorem c10_background (v : VarScreenInfo) (resized : Image) (x y : Nat)
    (hw : resized.width = new_width v)
    (huncov : resized.height ≤ y ∨ new_width v + new_width v ≤ x) :
    combined_image v resized x y = ⟨0, 0, 0⟩ := by
  unfold combined_image paste blackCanvas
  rw [if_neg (by omega), if_neg (by omega)]

/-- witness for C10: the 1280×720 dual layout of a 640×480 raster is
black at `(0, 700)`, below the pasted images. -/
theorem c10_background_witness :
    combined_image geomHD resized640 0 700 = ⟨0, 0, 0⟩ :=
  c10_background geomHD resized640 0 700 rfl (Or.inl (by decide))
